import Mathlib

/-!
Verification of the autogenerated notification-routing synthesis engine
(`pkg/services/ngalert/notifier/autogen_alertmanager.go`).

The Go code is embedded shallowly:
* `data.Fingerprint` (a `uint64`) becomes `Nat`; every produced hash value is
  reduced modulo `2 ^ 64`.
* the Go map `map[data.Fingerprint]models.NotificationSettings` becomes an
  association list `List (Fingerprint × NotificationSettings)`; "same map
  content" is a permutation with duplicate-free keys.
* fallible Go functions returning `(T, error)` become `Except String T`.
* helpers that live outside the embedded file (the `models` package and the
  alertmanager `labels` package) are modelled from the spec and carry a doc
  comment saying so.
-/

namespace GrafanaAutogen

/-- Embedding of `data.Fingerprint` from the Grafana plugin SDK: a 64-bit unsigned integer,
embedded as `Nat` (all values produced by the hash functions are `< 2 ^ 64`). -/
abbrev Fingerprint := Nat

/-! ### FNV-1 64-bit streaming hash (Go `hash/fnv.New64`) -/

/-- FNV-1 64-bit offset basis. -/
def fnvOffset64 : Nat := 14695981039346656037

/-- FNV-1 64-bit prime. -/
def fnvPrime64 : Nat := 1099511628211

/-- One step of FNV-1 (not 1a): multiply, truncate to 64 bits, then xor the byte. -/
def fnvStep (s b : Nat) : Nat := ((s * fnvPrime64) % 2 ^ 64) ^^^ b

/-- Hash a byte stream with FNV-1 64. -/
def fnvSum64 (bytes : List Nat) : Nat := bytes.foldl fnvStep fnvOffset64

/-- The 8 bytes of `n` in little-endian order
(Go `binary.LittleEndian.PutUint64`). -/
def leBytes8 (n : Nat) : List Nat :=
  [n % 256, n / 2 ^ 8 % 256, n / 2 ^ 16 % 256, n / 2 ^ 24 % 256,
   n / 2 ^ 32 % 256, n / 2 ^ 40 % 256, n / 2 ^ 48 % 256, n / 2 ^ 56 % 256]

/-- Go `calculateAutogeneratedRouteHash`: streams, for each fingerprint in the
given order, its 8 little-endian bytes followed by the separator byte 255 into
a 64-bit FNV-1 hash. -/
def calculateAutogeneratedRouteHash (fp : List Fingerprint) : Fingerprint :=
  fnvSum64 (fp.flatMap fun f => leBytes8 f ++ [255])

/-! ### Matchers (prometheus/alertmanager `pkg/labels`, an external dependency) -/

inductive MatchType where
  | matchEqual
  | matchNotEqual
  | matchRegexp
  | matchNotRegexp
deriving DecidableEq

/-- Embedding of `labels.Matcher` (the Go field `Type` is called `matchType` here because
`Type` is reserved in Lean). -/
structure Matcher where
  matchType : MatchType
  Name : String
  Value : String
deriving DecidableEq

/-- Embedding of `labels.NewMatcher` from the alertmanager dependency. Its only failure
path compiles the regular expression of a regex matcher; every matcher built
by the embedded file is an equality matcher, for which construction always
succeeds. -/
def NewMatcher (t : MatchType) (n v : String) : Except String Matcher :=
  .ok { matchType := t, Name := n, Value := v }

/-! ### Notification settings (the `models` package, outside the embedded file) -/

/-- Modelled from the spec: `models.NotificationSettings` — one rule's
notification preferences: a required receiver name plus optional group-by
labels, mute-time-interval references and group-wait / group-interval /
repeat-interval durations (durations embedded as `Option Nat`). -/
structure NotificationSettings where
  Receiver : String
  GroupBy : List String
  MuteTimeIntervals : List String
  GroupWait : Option Nat
  GroupInterval : Option Nat
  RepeatInterval : Option Nat
deriving DecidableEq

instance : Inhabited NotificationSettings :=
  ⟨⟨"", [], [], none, none, none⟩⟩

/-- Modelled from the spec: `NotificationSettings.IsAllDefault` — true iff
every optional field is unset / at its zero value. -/
def NotificationSettings.IsAllDefault (s : NotificationSettings) : Bool :=
  s.GroupBy.isEmpty && s.MuteTimeIntervals.isEmpty &&
    s.GroupWait.isNone && s.GroupInterval.isNone && s.RepeatInterval.isNone

/-- Character-code byte encoding of a string, used by the modelled settings
fingerprint below. -/
def encodeStr (s : String) : List Nat := s.data.map Char.toNat

/-- Encoding of an optional duration, used by the modelled settings
fingerprint below. -/
def encodeOpt : Option Nat → List Nat
  | none => [0]
  | some n => 1 :: leBytes8 n

/-- Modelled from the spec: `models.NotificationSettings.Fingerprint` — a
deterministic 64-bit content hash of the receiver and every optional field;
two settings values with identical content always hash identically. The exact
mixing function lives outside the embedded file; a 64-bit FNV-1 over a field
encoding with separators is used here, matching the spec's description of the
fingerprint as a stable content digest. -/
def NotificationSettings.Fingerprint (s : NotificationSettings) : Nat :=
  fnvSum64 (encodeStr s.Receiver ++ [255] ++
    (s.GroupBy.flatMap fun g => encodeStr g ++ [255]) ++ [254] ++
    (s.MuteTimeIntervals.flatMap fun m => encodeStr m ++ [255]) ++ [254] ++
    encodeOpt s.GroupWait ++ encodeOpt s.GroupInterval ++ encodeOpt s.RepeatInterval)

/-- Modelled from the spec: `data.Fingerprint.String` — a stable textual
rendering of a fingerprint, used as the matcher value of settings-hash leaf
routes. (The SDK renders in hexadecimal; only stability of the rendering
matters for the properties proved here.) -/
def fingerprintString (n : Nat) : String := toString n

/-! ### Stable label-name constants (the `models` package, outside the
embedded file). Modelled from the spec: the exact strings are part of the
wire contract and do not affect the properties proved here. -/

def AutogeneratedRouteLabel : String := "__grafana_autogenerated__"

def AutogeneratedRouteReceiverNameLabel : String := "__grafana_receiver__"

def AutogeneratedRouteSettingsHashLabel : String := "__grafana_route_settings_hash__"

def FolderTitleLabel : String := "grafana_folder"

def AlertNameLabel : String := "alertname"

/-! ### Routes (`definitions.Route`, restricted to the fields the embedded
file reads or writes) -/

/-- Embedding of `definitions.Route`: a node of the routing tree. Recursive through
`Routes`, hence an inductive with explicit accessors below. -/
inductive Route : Type where
  | mk (Receiver : String) (ObjectMatchers : List Matcher) (Continue : Bool)
      (GroupByStr : List String) (MuteTimeIntervals : List String)
      (GroupWait : Option Nat) (GroupInterval : Option Nat)
      (RepeatInterval : Option Nat) (Routes : List Route) : Route

def Route.Receiver : Route → String
  | .mk r _ _ _ _ _ _ _ _ => r

def Route.ObjectMatchers : Route → List Matcher
  | .mk _ m _ _ _ _ _ _ _ => m

def Route.Continue : Route → Bool
  | .mk _ _ c _ _ _ _ _ _ => c

def Route.GroupByStr : Route → List String
  | .mk _ _ _ g _ _ _ _ _ => g

def Route.Routes : Route → List Route
  | .mk _ _ _ _ _ _ _ _ rs => rs

/-- Functional update of the `Routes` field (Go mutates the node in place). -/
def Route.setRoutes : Route → List Route → Route
  | .mk r m c g mt gw gi ri _, rs => .mk r m c g mt gw gi ri rs

/-- Functional update of the `Receiver` field (Go mutates the node in place). -/
def Route.setReceiver : Route → String → Route
  | .mk _ m c g mt gw gi ri rs, r => .mk r m c g mt gw gi ri rs

/-! ### The route builder (`generateRouteFromSettings`) -/

/-- Go map indexing `settings[fingerprint]` over the association-list
embedding of the map; in the builder the key is always present. -/
def lookupD (l : List (Fingerprint × NotificationSettings)) (fp : Fingerprint) :
    NotificationSettings :=
  match l.find? (fun p => p.1 == fp) with
  | some p => p.2
  | none => default

/-- The second-level per-receiver branch node created by the builder. -/
def mkReceiverRoute (contactMatcher : Matcher) (recv : String) : Route :=
  .mk recv [contactMatcher] true [FolderTitleLabel, AlertNameLabel] [] none none none []

/-- The third-level settings-hash leaf node created by the builder. -/
def mkSettingsRoute (settingMatcher : Matcher) (s : NotificationSettings) : Route :=
  .mk s.Receiver [settingMatcher] false s.GroupBy s.MuteTimeIntervals
    s.GroupWait s.GroupInterval s.RepeatInterval []

/-- Append a leaf to the branch node with the given receiver. In Go the leaf
is appended through the `receiverRoutes` map, which is keyed by receiver name;
each branch's `Receiver` field equals its map key and the builder creates at
most one branch per receiver, so updating the child with that receiver is the
same operation. -/
def appendLeaf (children : List Route) (recv : String) (leaf : Route) : List Route :=
  children.map fun c =>
    if c.Receiver == recv then c.setRoutes (c.Routes ++ [leaf]) else c

/-- One iteration of the builder's loop over the sorted fingerprints:
look up (or create, appending it to the root's children) the per-receiver
branch, then — unless the settings are all-default — append the
settings-hash leaf to that branch. -/
def buildStep (settings : List (Fingerprint × NotificationSettings))
    (children : List Route) (fingerprint : Fingerprint) :
    Except String (List Route) := do
  let s := lookupD settings fingerprint
  let children ←
    if (children.find? fun c => c.Receiver == s.Receiver).isSome then
      pure children
    else do
      let contactMatcher ← NewMatcher .matchEqual AutogeneratedRouteReceiverNameLabel s.Receiver
      pure (children ++ [mkReceiverRoute contactMatcher s.Receiver])
  if s.IsAllDefault then
    pure children
  else do
    let settingMatcher ← NewMatcher .matchEqual AutogeneratedRouteSettingsHashLabel
      (fingerprintString s.Fingerprint)
    pure (appendLeaf children s.Receiver
      (mkSettingsRoute settingMatcher s))

/-- First phase of the loop body: look up the per-receiver branch and create
it (appending it to the root's children) when absent. -/
def ensureReceiverRoute (children : List Route) (s : NotificationSettings) : List Route :=
  if (children.find? fun c => c.Receiver == s.Receiver).isSome then
    children
  else
    children ++ [mkReceiverRoute
      ⟨.matchEqual, AutogeneratedRouteReceiverNameLabel, s.Receiver⟩ s.Receiver]

/-- Second phase of the loop body: unless the settings are all-default,
append the settings-hash leaf to the branch with the settings' receiver. -/
def addSettingLeaf (children : List Route) (s : NotificationSettings) : List Route :=
  if s.IsAllDefault then
    children
  else
    appendLeaf children s.Receiver
      (mkSettingsRoute
        ⟨.matchEqual, AutogeneratedRouteSettingsHashLabel, fingerprintString s.Fingerprint⟩ s)

/-- Total evaluation of `buildStep` (matcher construction for equality
matchers never fails); `buildStep_eq_ok` below ties the two together. -/
def buildStepT (settings : List (Fingerprint × NotificationSettings))
    (children : List Route) (fingerprint : Fingerprint) : List Route :=
  addSettingLeaf (ensureReceiverRoute children (lookupD settings fingerprint))
    (lookupD settings fingerprint)

/-- Go `slices.Sort` on fingerprints: ascending numeric order. Only the sorted
result matters, so the sorting algorithm is insertion sort. -/
def sortFingerprints (keys : List Fingerprint) : List Fingerprint :=
  keys.insertionSort (· ≤ ·)

/-- Go `autogeneratedRoute`: the generated root node (Go nil pointer = `none`)
plus the aggregate fingerprint. The Go zero value is `{ none, 0 }`. -/
structure autogeneratedRoute where
  Route : Option GrafanaAutogen.Route
  Fingerprint : Nat

/-- Go `generateRouteFromSettings`: sort the map's keys ascending, build the
root node with the autogenerated-label matcher and `Continue = false`, fold
the builder's loop over the sorted keys to produce the root's children, and
pair the tree with the aggregate hash of the sorted keys. -/
def generateRouteFromSettings (defaultReceiver : String)
    (settings : List (Fingerprint × NotificationSettings)) :
    Except String autogeneratedRoute := do
  let keys := sortFingerprints (settings.map Prod.fst)
  let rootMatcher ← NewMatcher .matchEqual AutogeneratedRouteLabel "true"
  let children ← keys.foldlM (buildStep settings) []
  let autoGenRoot : GrafanaAutogen.Route :=
    .mk defaultReceiver [rootMatcher] false [] [] none none none children
  pure { Route := some autoGenRoot
         Fingerprint := calculateAutogeneratedRouteHash keys }

/-! ### The collector and `newAutogeneratedRoute` -/

/-- Embedding of `models.AlertRuleKey`: opaque rule identity, used only for logging. -/
abbrev AlertRuleKey := String

/-- The collection loop of `newAutogeneratedRoute`: for every settings object
of every rule, skip it if the external validator rejects it (the Go code logs
and continues), compute its fingerprint and keep only the first settings
object seen for each fingerprint. The store's map is embedded as an
association list; the result map is an association list in insertion order. -/
def collectNotificationSettings (validator : NotificationSettings → Option String)
    (settings : List (AlertRuleKey × List NotificationSettings)) :
    List (Fingerprint × NotificationSettings) :=
  settings.foldl (fun acc rule =>
    rule.2.foldl (fun acc setting =>
      match validator setting with
      | some _ => acc
      | none =>
        let fp := setting.Fingerprint
        if (acc.find? fun p => p.1 == fp).isSome then acc
        else acc ++ [(fp, setting)]) acc) []

/-- Go `newAutogeneratedRoute`: the store query result is passed in as an
`Except` (the Go code calls `store.ListNotificationSettings` and wraps its
error); an empty deduplicated set returns the zero `autogeneratedRoute` with
no error; otherwise the builder runs and its error, if any, is wrapped. -/
def newAutogeneratedRoute
    (storeResult : Except String (List (AlertRuleKey × List NotificationSettings)))
    (defaultReceiver : String)
    (validator : NotificationSettings → Option String) :
    Except String autogeneratedRoute :=
  match storeResult with
  | .error err => .error ("failed to list alert rules: " ++ err)
  | .ok settings =>
    let notificationSettings := collectNotificationSettings validator settings
    if notificationSettings.isEmpty then
      .ok { Route := none, Fingerprint := 0 }
    else
      match generateRouteFromSettings defaultReceiver notificationSettings with
      | .error err => .error ("failed to create autogenerated route: " ++ err)
      | .ok r => .ok r

/-! ### The merger (`AddToConfig`) -/

/-- The part of `definitions.PostableApiAlertingConfig` the merger touches. -/
structure PostableApiAlertingConfig where
  Route : Option GrafanaAutogen.Route

/-- The part of `definitions.PostableUserConfig` the merger touches. -/
structure PostableUserConfig where
  AlertmanagerConfig : PostableApiAlertingConfig

/-- Go method `(*autogeneratedRoute).AddToConfig`: fails when the config has no root
route; is a no-op success when the receiver pointer or its route is nil;
otherwise sets the generated root's receiver to the existing root's receiver
and prepends the generated root to the existing root's children. Go mutates
`ar` and `config` in place; the embedding returns both updated values. -/
def autogeneratedRoute.AddToConfig (ar : Option autogeneratedRoute)
    (config : PostableUserConfig) :
    Except String (Option autogeneratedRoute × PostableUserConfig) :=
  match config.AlertmanagerConfig.Route with
  | none => .error "invalid Alertmanager configuration. The root route does not exist"
  | some existingRoot =>
    match ar with
    | none => .ok (none, config)
    | some a =>
      match a.Route with
      | none => .ok (some a, config)
      | some genRoot =>
        let genRoot := genRoot.setReceiver existingRoot.Receiver
        .ok (some { a with Route := some genRoot },
          { AlertmanagerConfig :=
            { Route := some (existingRoot.setRoutes (genRoot :: existingRoot.Routes)) } })

/-! ### Evaluation lemmas: matcher construction never fails on equality
matchers, so the builder's `Except` computation always takes the `ok` path. -/

theorem buildStep_eq_ok (settings : List (Fingerprint × NotificationSettings))
    (children : List Route) (fp : Fingerprint) :
    buildStep settings children fp = .ok (buildStepT settings children fp) := by
  unfold buildStep buildStepT ensureReceiverRoute addSettingLeaf NewMatcher
  cases h1 : (children.find? fun c => c.Receiver == (lookupD settings fp).Receiver).isSome <;>
    cases h2 : (lookupD settings fp).IsAllDefault <;>
      simp [h1, h2, Except.bind, bind, pure, Except.pure]

theorem foldlM_buildStep (settings : List (Fingerprint × NotificationSettings))
    (keys : List Fingerprint) (children : List Route) :
    keys.foldlM (buildStep settings) children =
      .ok (keys.foldl (buildStepT settings) children) := by
  induction keys generalizing children with
  | nil => rfl
  | cons k ks ih =>
    simp only [List.foldlM_cons, List.foldl_cons, buildStep_eq_ok]
    simpa using ih (buildStepT settings children k)

/-- The keys the builder iterates over: the map's keys, sorted ascending. -/
def builtKeys (settings : List (Fingerprint × NotificationSettings)) : List Fingerprint :=
  sortFingerprints (settings.map Prod.fst)

/-- Closed form of the root node the builder produces. -/
def builtRoot (defaultReceiver : String)
    (settings : List (Fingerprint × NotificationSettings)) : Route :=
  .mk defaultReceiver [⟨.matchEqual, AutogeneratedRouteLabel, "true"⟩] false [] [] none none none
    ((builtKeys settings).foldl (buildStepT settings) [])

theorem generateRouteFromSettings_eq (d : String)
    (settings : List (Fingerprint × NotificationSettings)) :
    generateRouteFromSettings d settings =
      .ok { Route := some (builtRoot d settings)
            Fingerprint := calculateAutogeneratedRouteHash (builtKeys settings) } := by
  unfold generateRouteFromSettings NewMatcher builtRoot builtKeys
  simp only [foldlM_buildStep]
  simp [Except.bind, bind, pure, Except.pure, sortFingerprints]

/-- The children of the root node the builder produces (empty when the
builder fails, which the lemmas above show never happens). -/
def rootChildren (d : String)
    (settings : List (Fingerprint × NotificationSettings)) : List Route :=
  match generateRouteFromSettings d settings with
  | .ok r =>
    match r.Route with
    | some root => root.Routes
    | none => []
  | .error _ => []

theorem rootChildren_eq (d : String)
    (settings : List (Fingerprint × NotificationSettings)) :
    rootChildren d settings = (builtKeys settings).foldl (buildStepT settings) [] := by
  unfold rootChildren
  rw [generateRouteFromSettings_eq]
  simp [builtRoot, Route.Routes]

/-! ### Map-content lemmas: the builder only consumes the settings map
through its key multiset and key lookups, so any two association lists with
the same content (a permutation with duplicate-free keys) are interchangeable. -/

theorem lookupD_perm : ∀ {l1 l2 : List (Fingerprint × NotificationSettings)},
    l1.Perm l2 → (l1.map Prod.fst).Nodup → ∀ fp, lookupD l1 fp = lookupD l2 fp := by
  intro l1 l2 h
  induction h with
  | nil => intro _ fp; rfl
  | cons x h ih =>
    intro hnd fp
    unfold lookupD
    cases hx : (x.1 == fp) with
    | true => simp [List.find?_cons, hx]
    | false =>
      simp only [List.find?_cons, hx]
      have := ih (by simpa using hnd.of_cons) fp
      unfold lookupD at this
      exact this
  | swap x y l =>
    intro hnd fp
    have hxy : y.1 ≠ x.1 := by
      simp only [List.map_cons, List.nodup_cons, List.mem_cons] at hnd
      exact fun hcontra => hnd.1 (Or.inl hcontra)
    unfold lookupD
    cases hy : (y.1 == fp) with
    | true =>
      have hy' : y.1 = fp := by simpa using hy
      have : x.1 ≠ fp := fun hcontra => hxy (hy'.trans hcontra.symm)
      simp [List.find?_cons, hy, beq_false_of_ne this]
    | false => cases hx : (x.1 == fp) <;> simp [List.find?_cons, hy, hx]
  | trans h1 h2 ih1 ih2 =>
    intro hnd fp
    exact (ih1 hnd fp).trans (ih2 (((h1.map Prod.fst).nodup_iff).mp hnd) fp)

theorem sortFingerprints_perm_eq {k1 k2 : List Fingerprint} (h : k1.Perm k2) :
    sortFingerprints k1 = sortFingerprints k2 :=
  List.eq_of_perm_of_sorted
    ((List.perm_insertionSort _ k1).trans (h.trans (List.perm_insertionSort _ k2).symm))
    (List.sorted_insertionSort _ k1)
    (List.sorted_insertionSort _ k2)

/-- Claim C1: building the route twice from settings maps with the same
key-value content — association lists that are permutations of each other
with duplicate-free keys — produces identical results: identical route trees
and identical aggregate fingerprints. -/
theorem generateRouteFromSettings_deterministic (defaultReceiver : String)
    (l1 l2 : List (Fingerprint × NotificationSettings))
    (hperm : l1.Perm l2) (hnd : (l1.map Prod.fst).Nodup) :
    generateRouteFromSettings defaultReceiver l1 =
      generateRouteFromSettings defaultReceiver l2 := by
  have hkeys : builtKeys l1 = builtKeys l2 := sortFingerprints_perm_eq (hperm.map Prod.fst)
  have hstep : buildStepT l1 = buildStepT l2 := by
    funext children fp
    unfold buildStepT
    rw [lookupD_perm hperm hnd fp]
  rw [generateRouteFromSettings_eq, generateRouteFromSettings_eq]
  unfold builtRoot
  rw [hkeys, hstep]

def exSettingsA : NotificationSettings := ⟨"slack", ["lbl"], [], some 30, none, none⟩

def exSettingsB : NotificationSettings := ⟨"email", [], [], none, none, none⟩

def exMap1 : List (Fingerprint × NotificationSettings) := [(2, exSettingsA), (1, exSettingsB)]

def exMap2 : List (Fingerprint × NotificationSettings) := [(1, exSettingsB), (2, exSettingsA)]

/-- Witness for claim C1 at a concrete pair of maps holding the same two
entries in opposite insertion orders. -/
theorem generateRouteFromSettings_deterministic_witness :
    exMap1.Perm exMap2 ∧ (exMap1.map Prod.fst).Nodup ∧
      generateRouteFromSettings "default" exMap1 =
        generateRouteFromSettings "default" exMap2 :=
  ⟨List.Perm.swap _ _ _, by decide,
    generateRouteFromSettings_deterministic "default" exMap1 exMap2
      (List.Perm.swap _ _ _) (by decide)⟩

/-- Claim C2, counterexample: `calculateAutogeneratedRouteHash` itself does
not sort its input — it folds the fingerprints in the order given — so at
the concrete distinct fingerprints 0 and 1 the aggregate of [0, 1] differs
from the aggregate of [1, 0]. (The ascending sort happens in the caller,
`generateRouteFromSettings`, before the hash is invoked.) -/
theorem calculateAutogeneratedRouteHash_order_dependent :
    calculateAutogeneratedRouteHash [0, 1] ≠ calculateAutogeneratedRouteHash [1, 0] := by
  decide

/-- Claim C2 as amended: the aggregate-fingerprint function combines the
fingerprints in their given order; it is its caller, the route builder, that
sorts the fingerprints ascending before combining, so the aggregate computed
over the sorted list is the same for [a, b] and [b, a], for any two
fingerprints a and b. -/
theorem calculateAutogeneratedRouteHash_sorted_comm (a b : Fingerprint) :
    calculateAutogeneratedRouteHash (sortFingerprints [a, b]) =
      calculateAutogeneratedRouteHash (sortFingerprints [b, a]) := by
  rw [sortFingerprints_perm_eq (List.Perm.swap b a [])]

/-! ### Merger lemmas -/

theorem Route.setRoutes_Routes (r : Route) (rs : List Route) :
    (r.setRoutes rs).Routes = rs := by
  cases r
  rfl

theorem Route.setReceiver_Receiver (r : Route) (s : String) :
    (r.setReceiver s).Receiver = s := by
  cases r
  rfl

/-- Claim C3: merging a non-empty generated route into a configuration whose
root route is present succeeds; the root is left with one more child route
than before, the generated route is the first child, the former children are
kept behind it unchanged, and the generated route's receiver equals the
existing root's receiver. -/
theorem AddToConfig_preserves_siblings (genRoot : Route) (fp : Nat)
    (existingRoot : Route) :
    ∃ gr,
      autogeneratedRoute.AddToConfig (some ⟨some genRoot, fp⟩) ⟨⟨some existingRoot⟩⟩ =
        .ok (some ⟨some gr, fp⟩,
          ⟨⟨some (existingRoot.setRoutes (gr :: existingRoot.Routes))⟩⟩) ∧
      gr.Receiver = existingRoot.Receiver ∧
      (existingRoot.setRoutes (gr :: existingRoot.Routes)).Routes.length =
        existingRoot.Routes.length + 1 ∧
      (existingRoot.setRoutes (gr :: existingRoot.Routes)).Routes.head? = some gr ∧
      (existingRoot.setRoutes (gr :: existingRoot.Routes)).Routes.tail =
        existingRoot.Routes := by
  refine ⟨genRoot.setReceiver existingRoot.Receiver, rfl,
    Route.setReceiver_Receiver _ _, ?_, ?_, ?_⟩ <;>
    simp [Route.setRoutes_Routes]

/-- Claim C8: merging fails with the configuration error when the existing
configuration has no root route, performing no mutation (the embedding
returns no updated state on the error path); when the root route is present
and the generated route is nil — a nil `autogeneratedRoute` pointer or a nil
generated root node — merging is a no-op success that returns the receiver
and the configuration unchanged. -/
theorem AddToConfig_nil_route_checks (ar : Option autogeneratedRoute)
    (config : PostableUserConfig) :
    (config.AlertmanagerConfig.Route = none →
      autogeneratedRoute.AddToConfig ar config =
        .error "invalid Alertmanager configuration. The root route does not exist") ∧
    (∀ existingRoot, config.AlertmanagerConfig.Route = some existingRoot →
      (ar = none ∨ ∃ a, ar = some a ∧ a.Route = none) →
      autogeneratedRoute.AddToConfig ar config = .ok (ar, config)) := by
  constructor
  · intro h
    simp [autogeneratedRoute.AddToConfig, h]
  · intro existingRoot hr hnil
    rcases hnil with rfl | ⟨a, rfl, ha⟩
    · simp [autogeneratedRoute.AddToConfig, hr]
    · simp [autogeneratedRoute.AddToConfig, hr, ha]

def exConfigNoRoot : PostableUserConfig := ⟨⟨none⟩⟩

def exRoot : Route := .mk "root-recv" [] false [] [] none none none []

def exConfigWithRoot : PostableUserConfig := ⟨⟨some exRoot⟩⟩

/-- Witness for claim C8 at concrete inputs: a configuration without a root
route rejects the merge; a configuration with a root route accepts an empty
generated route as a no-op. -/
theorem AddToConfig_nil_route_checks_witness :
    exConfigNoRoot.AlertmanagerConfig.Route = none ∧
    autogeneratedRoute.AddToConfig none exConfigNoRoot =
      .error "invalid Alertmanager configuration. The root route does not exist" ∧
    exConfigWithRoot.AlertmanagerConfig.Route = some exRoot ∧
    autogeneratedRoute.AddToConfig (some ⟨none, 7⟩) exConfigWithRoot =
      .ok (some ⟨none, 7⟩, exConfigWithRoot) :=
  ⟨rfl, (AddToConfig_nil_route_checks none exConfigNoRoot).1 rfl, rfl,
    (AddToConfig_nil_route_checks (some ⟨none, 7⟩) exConfigWithRoot).2 exRoot rfl
      (Or.inr ⟨⟨none, 7⟩, rfl, rfl⟩)⟩

/-- Claim C10: the missing-root check takes precedence over the
empty-generated-route no-op: whenever the configuration's root route is nil,
the configuration error is returned for every generated-route argument,
including a nil pointer and a nil generated root node. -/
theorem AddToConfig_missing_root_precedence (ar : Option autogeneratedRoute)
    (config : PostableUserConfig) (h : config.AlertmanagerConfig.Route = none) :
    autogeneratedRoute.AddToConfig ar config =
      .error "invalid Alertmanager configuration. The root route does not exist" := by
  simp [autogeneratedRoute.AddToConfig, h]

/-- Witness for claim C10 at a concrete input where the generated route is
itself nil and the configuration has no root route. -/
theorem AddToConfig_missing_root_precedence_witness :
    exConfigNoRoot.AlertmanagerConfig.Route = none ∧
    autogeneratedRoute.AddToConfig (some ⟨none, 3⟩) exConfigNoRoot =
      .error "invalid Alertmanager configuration. The root route does not exist" :=
  ⟨rfl, AddToConfig_missing_root_precedence (some ⟨none, 3⟩) exConfigNoRoot rfl⟩

/-! ### Continue-flag discipline (claim C4) -/

theorem Route.setRoutes_Continue (r : Route) (rs : List Route) :
    (r.setRoutes rs).Continue = r.Continue := by
  cases r
  rfl

theorem Route.setRoutes_Receiver (r : Route) (rs : List Route) :
    (r.setRoutes rs).Receiver = r.Receiver := by
  cases r
  rfl

/-- The continue-flag discipline of a root's children: every second-level
branch continues, every third-level leaf does not. -/
def childrenContOKP (children : List Route) : Prop :=
  ∀ c ∈ children, c.Continue = true ∧ ∀ g ∈ c.Routes, g.Continue = false

/-- The continue-flag discipline of a full build result, as a decidable
checker: the root does not continue, branches continue, leaves do not. -/
def contOK (r : autogeneratedRoute) : Bool :=
  match r.Route with
  | none => true
  | some root =>
    !root.Continue && root.Routes.all fun c => c.Continue && c.Routes.all fun g => !g.Continue

theorem childrenContOKP_appendLeaf {children : List Route} {recv : String}
    {leaf : Route} (h : childrenContOKP children) (hleaf : leaf.Continue = false) :
    childrenContOKP (appendLeaf children recv leaf) := by
  intro c hc
  rw [appendLeaf, List.mem_map] at hc
  obtain ⟨c0, hc0, rfl⟩ := hc
  obtain ⟨h1, h2⟩ := h c0 hc0
  by_cases hr : (c0.Receiver == recv) = true
  · simp only [hr, if_true]
    refine ⟨by rw [Route.setRoutes_Continue]; exact h1, ?_⟩
    rw [Route.setRoutes_Routes]
    intro g hg
    rcases List.mem_append.mp hg with hg | hg
    · exact h2 g hg
    · rw [List.mem_singleton.mp hg]
      exact hleaf
  · simp only [hr, if_false]
    exact ⟨h1, h2⟩

theorem childrenContOKP_ensureReceiverRoute {children : List Route}
    (h : childrenContOKP children) (s : NotificationSettings) :
    childrenContOKP (ensureReceiverRoute children s) := by
  unfold ensureReceiverRoute
  split
  · exact h
  · intro c hc
    rcases List.mem_append.mp hc with hc | hc
    · exact h c hc
    · rw [List.mem_singleton.mp hc]
      exact ⟨rfl, fun g hg => absurd hg (List.not_mem_nil g)⟩

theorem childrenContOKP_addSettingLeaf {children : List Route}
    (h : childrenContOKP children) (s : NotificationSettings) :
    childrenContOKP (addSettingLeaf children s) := by
  unfold addSettingLeaf
  split
  · exact h
  · exact childrenContOKP_appendLeaf h rfl

theorem childrenContOKP_buildStepT (settings : List (Fingerprint × NotificationSettings))
    {children : List Route} (h : childrenContOKP children) (fp : Fingerprint) :
    childrenContOKP (buildStepT settings children fp) :=
  childrenContOKP_addSettingLeaf
    (childrenContOKP_ensureReceiverRoute h (lookupD settings fp)) (lookupD settings fp)

theorem childrenContOKP_foldl (settings : List (Fingerprint × NotificationSettings))
    (keys : List Fingerprint) :
    ∀ children, childrenContOKP children →
      childrenContOKP (keys.foldl (buildStepT settings) children) := by
  induction keys with
  | nil => intro children h; exact h
  | cons k ks ih =>
    intro children h
    exact ih _ (childrenContOKP_buildStepT settings h k)

/-- Claim C4: in every tree the route builder produces, the root node has
`Continue = false`, every second-level per-receiver branch node has
`Continue = true`, and every third-level settings-hash leaf node has
`Continue = false`. -/
theorem built_route_continue_flags (defaultReceiver : String)
    (settings : List (Fingerprint × NotificationSettings)) :
    ((generateRouteFromSettings defaultReceiver settings).toOption.all contOK) = true := by
  rw [generateRouteFromSettings_eq]
  have h : childrenContOKP ((builtKeys settings).foldl (buildStepT settings) []) :=
    childrenContOKP_foldl settings (builtKeys settings) []
      (fun c hc => absurd hc (List.not_mem_nil c))
  show ((builtKeys settings).foldl (buildStepT settings) []).all
      (fun c => c.Continue && c.Routes.all fun g => !g.Continue) = true
  simp only [List.all_eq_true]
  intro c hc
  obtain ⟨h1, h2⟩ := h c hc
  rw [h1, Bool.true_and]
  simp only [List.all_eq_true]
  intro g hg
  rw [h2 g hg]
  rfl

/-! ### Receiver branches and leaf counts (claims C5) -/

/-- The receiver names of a list of branch nodes, in order. -/
def receivers (children : List Route) : List String := children.map Route.Receiver

/-- Total number of third-level leaf nodes across a root's children. -/
def totalLeaves (children : List Route) : Nat :=
  (children.map fun c => c.Routes.length).sum

theorem totalLeaves_cons (c : Route) (cs : List Route) :
    totalLeaves (c :: cs) = c.Routes.length + totalLeaves cs := by
  unfold totalLeaves
  rw [List.map_cons, List.sum_cons]

theorem appendLeaf_cons (c : Route) (cs : List Route) (recv : String) (leaf : Route) :
    appendLeaf (c :: cs) recv leaf =
      (if c.Receiver == recv then c.setRoutes (c.Routes ++ [leaf]) else c) ::
        appendLeaf cs recv leaf := rfl

theorem receivers_appendLeaf (children : List Route) (recv : String) (leaf : Route) :
    receivers (appendLeaf children recv leaf) = receivers children := by
  unfold receivers appendLeaf
  rw [List.map_map]
  apply List.map_congr_left
  intro c _
  by_cases hr : (c.Receiver == recv) = true
  · simp only [Function.comp_apply, if_pos hr]
    exact Route.setRoutes_Receiver c _
  · simp only [Function.comp_apply, if_neg hr]

theorem find?_receiver_isSome (children : List Route) (recv : String) :
    ((children.find? fun c => c.Receiver == recv).isSome = true) ↔
      recv ∈ receivers children := by
  rw [List.find?_isSome]
  unfold receivers
  simp only [List.mem_map, beq_iff_eq]

theorem receivers_ensure_mem (children : List Route) (s : NotificationSettings) :
    s.Receiver ∈ receivers (ensureReceiverRoute children s) := by
  unfold ensureReceiverRoute
  by_cases h : ((children.find? fun c => c.Receiver == s.Receiver).isSome = true)
  · rw [if_pos h]
    exact (find?_receiver_isSome children s.Receiver).mp h
  · rw [if_neg h]
    unfold receivers
    rw [List.map_append]
    apply List.mem_append_right
    simp [mkReceiverRoute, Route.Receiver]

theorem receivers_ensure_mono {children : List Route} {r : String}
    (h : r ∈ receivers children) (s : NotificationSettings) :
    r ∈ receivers (ensureReceiverRoute children s) := by
  unfold ensureReceiverRoute
  split
  · exact h
  · unfold receivers at h ⊢
    rw [List.map_append]
    exact List.mem_append_left _ h

theorem receivers_nodup_ensure {children : List Route}
    (h : (receivers children).Nodup) (s : NotificationSettings) :
    (receivers (ensureReceiverRoute children s)).Nodup := by
  unfold ensureReceiverRoute
  by_cases hf : ((children.find? fun c => c.Receiver == s.Receiver).isSome = true)
  · rw [if_pos hf]
    exact h
  · rw [if_neg hf]
    have hnm : s.Receiver ∉ receivers children :=
      fun hmem => hf ((find?_receiver_isSome children s.Receiver).mpr hmem)
    unfold receivers at h hnm ⊢
    rw [List.map_append]
    simp [List.nodup_append, mkReceiverRoute, Route.Receiver, h, hnm]

theorem receivers_addSettingLeaf (children : List Route) (s : NotificationSettings) :
    receivers (addSettingLeaf children s) = receivers children := by
  unfold addSettingLeaf
  split
  · rfl
  · exact receivers_appendLeaf children s.Receiver _

theorem totalLeaves_ensure (children : List Route) (s : NotificationSettings) :
    totalLeaves (ensureReceiverRoute children s) = totalLeaves children := by
  unfold ensureReceiverRoute
  split
  · rfl
  · unfold totalLeaves
    rw [List.map_append, List.sum_append]
    simp [mkReceiverRoute, Route.Routes]

theorem appendLeaf_not_mem : ∀ {children : List Route} {recv : String} {leaf : Route},
    recv ∉ receivers children → appendLeaf children recv leaf = children := by
  intro children
  induction children with
  | nil => intro recv leaf _; rfl
  | cons c cs ih =>
    intro recv leaf h
    simp only [receivers, List.map_cons, List.mem_cons, not_or] at h
    have hcr : ¬((c.Receiver == recv) = true) := by
      rw [beq_eq_false_iff_ne.mpr (Ne.symm h.1)]
      exact Bool.false_ne_true
    rw [appendLeaf_cons, if_neg hcr, ih (by unfold receivers; exact h.2)]

theorem totalLeaves_appendLeaf : ∀ {children : List Route} {recv : String} {leaf : Route},
    (receivers children).Nodup → recv ∈ receivers children →
    totalLeaves (appendLeaf children recv leaf) = totalLeaves children + 1 := by
  intro children
  induction children with
  | nil => intro recv leaf _ h; cases h
  | cons c cs ih =>
    intro recv leaf hnd hmem
    have hnd' : (receivers cs).Nodup ∧ c.Receiver ∉ receivers cs := by
      unfold receivers at hnd ⊢
      rw [List.map_cons, List.nodup_cons] at hnd
      exact ⟨hnd.2, hnd.1⟩
    by_cases hcr : (c.Receiver == recv) = true
    · have hrecv : c.Receiver = recv := beq_iff_eq.mp hcr
      have hnotin : recv ∉ receivers cs := hrecv ▸ hnd'.2
      rw [appendLeaf_cons, if_pos hcr, totalLeaves_cons, totalLeaves_cons,
        appendLeaf_not_mem hnotin, Route.setRoutes_Routes, List.length_append]
      simp only [List.length_singleton]
      omega
    · have hmem' : recv ∈ receivers cs := by
        unfold receivers at hmem ⊢
        rw [List.map_cons, List.mem_cons] at hmem
        rcases hmem with hmem | hmem
        · exact absurd (beq_iff_eq.mpr hmem.symm) hcr
        · exact hmem
      rw [appendLeaf_cons, if_neg hcr, totalLeaves_cons, totalLeaves_cons, ih hnd'.1 hmem']
      omega

theorem totalLeaves_buildStepT (settings : List (Fingerprint × NotificationSettings))
    {children : List Route} (hnd : (receivers children).Nodup) (fp : Fingerprint) :
    totalLeaves (buildStepT settings children fp) =
      totalLeaves children +
        (if (lookupD settings fp).IsAllDefault then 0 else 1) := by
  unfold buildStepT addSettingLeaf
  by_cases hd : (lookupD settings fp).IsAllDefault = true
  · rw [if_pos hd, if_pos hd, totalLeaves_ensure]
    omega
  · rw [if_neg hd, if_neg hd,
      totalLeaves_appendLeaf (receivers_nodup_ensure hnd _)
        (receivers_ensure_mem children _), totalLeaves_ensure]

theorem receivers_nodup_buildStepT (settings : List (Fingerprint × NotificationSettings))
    {children : List Route} (hnd : (receivers children).Nodup) (fp : Fingerprint) :
    (receivers (buildStepT settings children fp)).Nodup := by
  unfold buildStepT
  rw [receivers_addSettingLeaf]
  exact receivers_nodup_ensure hnd _

theorem totalLeaves_foldl (settings : List (Fingerprint × NotificationSettings))
    (keys : List Fingerprint) :
    ∀ children, (receivers children).Nodup →
      totalLeaves (keys.foldl (buildStepT settings) children) =
        totalLeaves children +
          keys.countP (fun k => !(lookupD settings k).IsAllDefault) := by
  induction keys with
  | nil =>
    intro children _
    rw [List.foldl_nil, List.countP_nil]
    omega
  | cons k ks ih =>
    intro children hnd
    rw [List.foldl_cons, ih _ (receivers_nodup_buildStepT settings hnd k),
      totalLeaves_buildStepT settings hnd k, List.countP_cons]
    by_cases hd : (lookupD settings k).IsAllDefault = true
    · simp [hd]
    · simp only [hd, Bool.not_eq_true] at hd ⊢
      simp [hd]
      omega

/-! ### Lookup lemmas for duplicate-free association lists -/

theorem lookupD_mem {l : List (Fingerprint × NotificationSettings)} {fp : Fingerprint}
    (h : fp ∈ l.map Prod.fst) : (fp, lookupD l fp) ∈ l := by
  unfold lookupD
  cases hf : l.find? (fun p => p.1 == fp) with
  | none =>
    exfalso
    rw [List.mem_map] at h
    obtain ⟨p, hp, hfst⟩ := h
    exact (List.find?_eq_none.mp hf p hp) (beq_iff_eq.mpr hfst)
  | some p =>
    have h0 := List.find?_some hf
    have h1 : p.1 = fp := beq_iff_eq.mp h0
    have h2 : p ∈ l := List.mem_of_find?_eq_some hf
    rw [← h1]
    exact h2

theorem lookupD_eq_of_mem : ∀ {l : List (Fingerprint × NotificationSettings)}
    {fp : Fingerprint} {s : NotificationSettings},
    (fp, s) ∈ l → (l.map Prod.fst).Nodup → lookupD l fp = s := by
  intro l
  induction l with
  | nil => intro fp s h _; cases h
  | cons p t ih =>
    intro fp s h hnd
    rw [List.map_cons, List.nodup_cons] at hnd
    rcases List.mem_cons.mp h with rfl | h
    · unfold lookupD
      rw [List.find?_cons_of_pos _ (by simp)]
    · have hfp : fp ∈ t.map Prod.fst := List.mem_map.mpr ⟨(fp, s), h, rfl⟩
      have hne : ¬((p.1 == fp) = true) :=
        fun he => hnd.1 (beq_iff_eq.mp he ▸ hfp)
      unfold lookupD
      rw [List.find?_cons_of_neg (p := fun q : Fingerprint × NotificationSettings => q.1 == fp) _ hne]
      exact ih h hnd.2

/-- The key multiset of an association list with duplicate-free keys counts
exactly one non-default entry per non-default settings value. -/
theorem countP_keys_eq_filter_length : ∀ (l : List (Fingerprint × NotificationSettings)),
    (l.map Prod.fst).Nodup →
    (l.map Prod.fst).countP (fun k => !(lookupD l k).IsAllDefault) =
      (l.filter fun p => !p.2.IsAllDefault).length := by
  intro l
  induction l with
  | nil => intro _; rfl
  | cons p t ih =>
    intro hnd
    rw [List.map_cons, List.nodup_cons] at hnd
    have hhead : lookupD (p :: t) p.1 = p.2 := by
      unfold lookupD
      rw [List.find?_cons_of_pos _ (by simp)]
    have htail : ∀ k ∈ t.map Prod.fst, lookupD (p :: t) k = lookupD t k := by
      intro k hk
      have hne : ¬((p.1 == k) = true) := fun he => hnd.1 (beq_iff_eq.mp he ▸ hk)
      unfold lookupD
      rw [List.find?_cons_of_neg (p := fun q : Fingerprint × NotificationSettings => q.1 == k) _ hne]
    rw [List.map_cons, List.countP_cons, List.filter_cons]
    have hcong : (t.map Prod.fst).countP (fun k => !(lookupD (p :: t) k).IsAllDefault) =
        (t.map Prod.fst).countP (fun k => !(lookupD t k).IsAllDefault) :=
      List.countP_congr (fun k hk => by rw [htail k hk])
    rw [hcong, ih hnd.2, hhead]
    by_cases hd : (!p.2.IsAllDefault) = true
    · rw [if_pos hd, if_pos hd, List.length_cons]
    · rw [if_neg hd, if_neg hd]
      omega

/-! ### Leaf provenance: every third-level leaf of the built tree comes from
a non-all-default settings entry of the input map (claim C5). -/

def leafProvenance (l : List (Fingerprint × NotificationSettings))
    (children : List Route) : Prop :=
  ∀ c ∈ children, ∀ g ∈ c.Routes, ∃ p ∈ l, p.2.IsAllDefault = false ∧
    g = mkSettingsRoute ⟨.matchEqual, AutogeneratedRouteSettingsHashLabel,
      fingerprintString p.2.Fingerprint⟩ p.2

theorem leafProvenance_appendLeaf {l : List (Fingerprint × NotificationSettings)}
    {children : List Route} {recv : String} {leaf : Route}
    (h : leafProvenance l children)
    (hleaf : ∃ p ∈ l, p.2.IsAllDefault = false ∧
      leaf = mkSettingsRoute ⟨.matchEqual, AutogeneratedRouteSettingsHashLabel,
        fingerprintString p.2.Fingerprint⟩ p.2) :
    leafProvenance l (appendLeaf children recv leaf) := by
  intro c hc
  rw [appendLeaf, List.mem_map] at hc
  obtain ⟨c0, hc0, rfl⟩ := hc
  by_cases hr : (c0.Receiver == recv) = true
  · rw [if_pos hr, Route.setRoutes_Routes]
    intro g hg
    rcases List.mem_append.mp hg with hg | hg
    · exact h c0 hc0 g hg
    · rw [List.mem_singleton.mp hg]
      exact hleaf
  · rw [if_neg hr]
    exact h c0 hc0

theorem leafProvenance_ensure {l : List (Fingerprint × NotificationSettings)}
    {children : List Route} (h : leafProvenance l children)
    (s : NotificationSettings) :
    leafProvenance l (ensureReceiverRoute children s) := by
  unfold ensureReceiverRoute
  split
  · exact h
  · intro c hc
    rcases List.mem_append.mp hc with hc | hc
    · exact h c hc
    · rw [List.mem_singleton.mp hc]
      exact fun g hg => absurd hg (List.not_mem_nil g)

theorem leafProvenance_buildStepT {l : List (Fingerprint × NotificationSettings)}
    {children : List Route} (h : leafProvenance l children) {fp : Fingerprint}
    (hfp : fp ∈ l.map Prod.fst) :
    leafProvenance l (buildStepT l children fp) := by
  unfold buildStepT addSettingLeaf
  by_cases hd : (lookupD l fp).IsAllDefault = true
  · rw [if_pos hd]
    exact leafProvenance_ensure h _
  · rw [if_neg hd]
    exact leafProvenance_appendLeaf (leafProvenance_ensure h _)
      ⟨(fp, lookupD l fp), lookupD_mem hfp, Bool.not_eq_true _ ▸ hd, rfl⟩

theorem leafProvenance_foldl (l : List (Fingerprint × NotificationSettings))
    (keys : List Fingerprint) (hkeys : ∀ k ∈ keys, k ∈ l.map Prod.fst) :
    ∀ children, leafProvenance l children →
      leafProvenance l (keys.foldl (buildStepT l) children) := by
  induction keys with
  | nil => intro children h; exact h
  | cons k ks ih =>
    intro children h
    rw [List.foldl_cons]
    exact ih (fun k2 hk2 => hkeys k2 (List.mem_cons_of_mem _ hk2)) _
      (leafProvenance_buildStepT h (hkeys k (List.mem_cons_self _ _)))

/-! ### Receiver-branch existence (claim C5) -/

theorem receivers_mono_buildStepT (settings : List (Fingerprint × NotificationSettings))
    {children : List Route} {r : String} (h : r ∈ receivers children)
    (fp : Fingerprint) : r ∈ receivers (buildStepT settings children fp) := by
  unfold buildStepT
  rw [receivers_addSettingLeaf]
  exact receivers_ensure_mono h _

theorem receivers_mono_foldl (settings : List (Fingerprint × NotificationSettings))
    (keys : List Fingerprint) :
    ∀ {children : List Route} {r : String}, r ∈ receivers children →
      r ∈ receivers (keys.foldl (buildStepT settings) children) := by
  induction keys with
  | nil => intro children r h; exact h
  | cons k ks ih =>
    intro children r h
    rw [List.foldl_cons]
    exact ih (receivers_mono_buildStepT settings h k)

theorem receiver_mem_buildStepT (settings : List (Fingerprint × NotificationSettings))
    (children : List Route) (fp : Fingerprint) :
    (lookupD settings fp).Receiver ∈ receivers (buildStepT settings children fp) := by
  unfold buildStepT
  rw [receivers_addSettingLeaf]
  exact receivers_ensure_mem _ _

theorem receiver_mem_foldl (settings : List (Fingerprint × NotificationSettings))
    (keys : List Fingerprint) :
    ∀ children k, k ∈ keys →
      (lookupD settings k).Receiver ∈
        receivers (keys.foldl (buildStepT settings) children) := by
  induction keys with
  | nil => intro children k h; cases h
  | cons k2 ks ih =>
    intro children k h
    rw [List.foldl_cons]
    rcases List.mem_cons.mp h with rfl | h
    · exact receivers_mono_foldl settings ks (receiver_mem_buildStepT settings children k)
    · exact ih _ k h

/-- Claim C5: for any entry of a deduplicated settings map whose settings
are all-default, the built tree contains no third-tier leaf for that object
— the object contributes only its per-receiver branch node. Precisely: the
object's receiver branch exists among the root's children, every leaf in the
tree stems from a non-all-default entry of the map, and the total number of
leaves equals the number of non-all-default entries (so all-default entries
contribute no leaf at all). -/
theorem all_default_suppression (defaultReceiver : String)
    (l : List (Fingerprint × NotificationSettings)) (fp : Fingerprint)
    (s : NotificationSettings) (hmem : (fp, s) ∈ l)
    (hnd : (l.map Prod.fst).Nodup) (_hdef : s.IsAllDefault = true) :
    (∃ c ∈ rootChildren defaultReceiver l, c.Receiver = s.Receiver) ∧
    (∀ c ∈ rootChildren defaultReceiver l, ∀ g ∈ c.Routes,
      ∃ p ∈ l, p.2.IsAllDefault = false ∧
        g = mkSettingsRoute ⟨.matchEqual, AutogeneratedRouteSettingsHashLabel,
          fingerprintString p.2.Fingerprint⟩ p.2) ∧
    totalLeaves (rootChildren defaultReceiver l) =
      (l.filter fun p => !p.2.IsAllDefault).length := by
  have hperm : (builtKeys l).Perm (l.map Prod.fst) := List.perm_insertionSort _ _
  have hkeys_sub : ∀ k ∈ builtKeys l, k ∈ l.map Prod.fst :=
    fun k hk => hperm.mem_iff.mp hk
  rw [rootChildren_eq]
  refine ⟨?_, ?_, ?_⟩
  · have hk : fp ∈ builtKeys l :=
      hperm.mem_iff.mpr (List.mem_map.mpr ⟨(fp, s), hmem, rfl⟩)
    have hmem2 := receiver_mem_foldl l (builtKeys l) [] fp hk
    rw [lookupD_eq_of_mem hmem hnd] at hmem2
    unfold receivers at hmem2
    rw [List.mem_map] at hmem2
    obtain ⟨c, hc, hcr⟩ := hmem2
    exact ⟨c, hc, hcr⟩
  · exact leafProvenance_foldl l (builtKeys l) hkeys_sub []
      (fun c hc => absurd hc (List.not_mem_nil c))
  · rw [totalLeaves_foldl l (builtKeys l) [] (by simp [receivers])]
    have h0 : totalLeaves ([] : List Route) = 0 := rfl
    rw [h0, Nat.zero_add, hperm.countP_eq]
    exact countP_keys_eq_filter_length l hnd

def exMapC5 : List (Fingerprint × NotificationSettings) :=
  [(1, exSettingsB), (2, exSettingsA)]

/-- Witness for claim C5 at a concrete map holding one all-default entry
(receiver "email") and one non-default entry (receiver "slack"). -/
theorem all_default_suppression_witness :
    (1, exSettingsB) ∈ exMapC5 ∧ (exMapC5.map Prod.fst).Nodup ∧
      exSettingsB.IsAllDefault = true ∧
      ((∃ c ∈ rootChildren "default" exMapC5, c.Receiver = exSettingsB.Receiver) ∧
        (∀ c ∈ rootChildren "default" exMapC5, ∀ g ∈ c.Routes,
          ∃ p ∈ exMapC5, p.2.IsAllDefault = false ∧
            g = mkSettingsRoute ⟨.matchEqual, AutogeneratedRouteSettingsHashLabel,
              fingerprintString p.2.Fingerprint⟩ p.2) ∧
        totalLeaves (rootChildren "default" exMapC5) =
          (exMapC5.filter fun p => !p.2.IsAllDefault).length) :=
  ⟨by decide, by decide, by decide,
    all_default_suppression "default" exMapC5 1 exSettingsB
      (by decide) (by decide) (by decide)⟩

/-! ### Collector lemmas (claims C6, C7, C9) -/

/-- The body of the collection loop for a single settings object, named so
the nested folds of `collectNotificationSettings` can be reasoned about. -/
def collectStep (v : NotificationSettings → Option String)
    (acc : List (Fingerprint × NotificationSettings))
    (setting : NotificationSettings) : List (Fingerprint × NotificationSettings) :=
  match v setting with
  | some _ => acc
  | none =>
    if (acc.find? fun p => p.1 == setting.Fingerprint).isSome then acc
    else acc ++ [(setting.Fingerprint, setting)]

theorem collectNotificationSettings_eq
    (v : NotificationSettings → Option String)
    (settings : List (AlertRuleKey × List NotificationSettings)) :
    collectNotificationSettings v settings =
      settings.foldl (fun acc rule => rule.2.foldl (collectStep v) acc) [] := rfl

theorem nodupKeys_collectStep {v : NotificationSettings → Option String}
    {acc : List (Fingerprint × NotificationSettings)}
    (h : (acc.map Prod.fst).Nodup) (s : NotificationSettings) :
    ((collectStep v acc s).map Prod.fst).Nodup := by
  unfold collectStep
  cases v s with
  | some e => exact h
  | none =>
    by_cases hf : ((acc.find? fun p => p.1 == s.Fingerprint).isSome = true)
    · rw [if_pos hf]
      exact h
    · rw [if_neg hf, List.map_append]
      have hnm : s.Fingerprint ∉ acc.map Prod.fst := by
        intro hmem
        apply hf
        rw [List.find?_isSome]
        rw [List.mem_map] at hmem
        obtain ⟨p, hp, hfst⟩ := hmem
        exact ⟨p, hp, beq_iff_eq.mpr hfst⟩
      simp [List.nodup_append, h, hnm]

theorem keys_mono_collectStep {v : NotificationSettings → Option String}
    {acc : List (Fingerprint × NotificationSettings)} {fp : Fingerprint}
    (h : fp ∈ acc.map Prod.fst) (s : NotificationSettings) :
    fp ∈ (collectStep v acc s).map Prod.fst := by
  unfold collectStep
  cases v s with
  | some e => exact h
  | none =>
    by_cases hf : ((acc.find? fun p => p.1 == s.Fingerprint).isSome = true)
    · rw [if_pos hf]
      exact h
    · rw [if_neg hf, List.map_append]
      exact List.mem_append_left _ h

theorem key_hit_collectStep {v : NotificationSettings → Option String}
    {s : NotificationSettings} (hv : v s = none)
    (acc : List (Fingerprint × NotificationSettings)) :
    s.Fingerprint ∈ (collectStep v acc s).map Prod.fst := by
  unfold collectStep
  rw [hv]
  by_cases hf : ((acc.find? fun p => p.1 == s.Fingerprint).isSome = true)
  · rw [if_pos hf]
    rw [List.find?_isSome] at hf
    obtain ⟨p, hp, hbeq⟩ := hf
    exact List.mem_map.mpr ⟨p, hp, beq_iff_eq.mp hbeq⟩
  · rw [if_neg hf, List.map_append]
    apply List.mem_append_right
    simp

theorem nodupKeys_innerFold (v : NotificationSettings → Option String)
    (rs : List NotificationSettings) :
    ∀ acc, (acc.map Prod.fst).Nodup →
      ((rs.foldl (collectStep v) acc).map Prod.fst).Nodup := by
  induction rs with
  | nil => intro acc h; exact h
  | cons s rs ih =>
    intro acc h
    rw [List.foldl_cons]
    exact ih _ (nodupKeys_collectStep h s)

theorem keys_mono_innerFold (v : NotificationSettings → Option String)
    (rs : List NotificationSettings) :
    ∀ {acc} {fp : Fingerprint}, fp ∈ acc.map Prod.fst →
      fp ∈ (rs.foldl (collectStep v) acc).map Prod.fst := by
  induction rs with
  | nil => intro acc fp h; exact h
  | cons s rs ih =>
    intro acc fp h
    rw [List.foldl_cons]
    exact ih (keys_mono_collectStep h s)

theorem key_hit_innerFold {v : NotificationSettings → Option String}
    {s : NotificationSettings} {rs : List NotificationSettings}
    (hs : s ∈ rs) (hv : v s = none) :
    ∀ acc, s.Fingerprint ∈ ((rs.foldl (collectStep v) acc).map Prod.fst) := by
  induction rs with
  | nil => cases hs
  | cons s2 rs ih =>
    intro acc
    rw [List.foldl_cons]
    rcases List.mem_cons.mp hs with rfl | hs2
    · exact keys_mono_innerFold v rs (key_hit_collectStep hv acc)
    · exact ih hs2 _

theorem nodupKeys_outerFold (v : NotificationSettings → Option String)
    (settings : List (AlertRuleKey × List NotificationSettings)) :
    ∀ acc : List (Fingerprint × NotificationSettings), (acc.map Prod.fst).Nodup →
      ((settings.foldl (fun acc rule => rule.2.foldl (collectStep v) acc) acc).map
        Prod.fst).Nodup := by
  induction settings with
  | nil => intro acc h; exact h
  | cons rule rest ih =>
    intro acc h
    rw [List.foldl_cons]
    exact ih _ (nodupKeys_innerFold v rule.2 acc h)

theorem keys_mono_outerFold (v : NotificationSettings → Option String)
    (settings : List (AlertRuleKey × List NotificationSettings)) :
    ∀ {acc : List (Fingerprint × NotificationSettings)} {fp : Fingerprint},
      fp ∈ acc.map Prod.fst →
      fp ∈ ((settings.foldl (fun acc rule => rule.2.foldl (collectStep v) acc) acc).map
        Prod.fst) := by
  induction settings with
  | nil => intro acc fp h; exact h
  | cons rule rest ih =>
    intro acc fp h
    rw [List.foldl_cons]
    exact ih (keys_mono_innerFold v rule.2 h)

theorem key_hit_outerFold {v : NotificationSettings → Option String}
    {settings : List (AlertRuleKey × List NotificationSettings)}
    {rk : AlertRuleKey} {rs : List NotificationSettings} {s : NotificationSettings}
    (hrule : (rk, rs) ∈ settings) (hs : s ∈ rs) (hv : v s = none) :
    ∀ acc : List (Fingerprint × NotificationSettings), s.Fingerprint ∈
      ((settings.foldl (fun acc rule => rule.2.foldl (collectStep v) acc) acc).map
        Prod.fst) := by
  induction settings with
  | nil => cases hrule
  | cons rule rest ih =>
    intro acc
    rw [List.foldl_cons]
    rcases List.mem_cons.mp hrule with rfl | hrule2
    · exact keys_mono_outerFold v rest (key_hit_innerFold hs hv acc)
    · exact ih hrule2 _

theorem countP_key_eq_one {l : List (Fingerprint × NotificationSettings)}
    {fp : Fingerprint} (hnd : (l.map Prod.fst).Nodup)
    (hmem : fp ∈ l.map Prod.fst) :
    l.countP (fun p => p.1 == fp) = 1 := by
  have h1 : (l.map Prod.fst).countP (fun k => k == fp) =
      l.countP (fun p => p.1 == fp) := by
    rw [List.countP_map]
    rfl
  have h2 : (l.map Prod.fst).count fp = 1 := List.count_eq_one_of_mem hnd hmem
  rw [← h1, ← h2]
  rfl

/-- Claim C6: after collection the deduplicated settings map contains no two
entries sharing a fingerprint, and semantically-identical valid settings
objects across any rules collapse to exactly one entry: for every valid
settings object occurring in the store result, exactly one entry of the
collected map carries its fingerprint (identical objects have identical
fingerprints, so N identical objects yield that single entry). -/
theorem collect_dedup (v : NotificationSettings → Option String)
    (settings : List (AlertRuleKey × List NotificationSettings)) :
    ((collectNotificationSettings v settings).map Prod.fst).Nodup ∧
    (∀ rk rs s, (rk, rs) ∈ settings → s ∈ rs → v s = none →
      (collectNotificationSettings v settings).countP
        (fun p => p.1 == s.Fingerprint) = 1) := by
  constructor
  · rw [collectNotificationSettings_eq]
    exact nodupKeys_outerFold v settings [] (by simp)
  · intro rk rs s hrule hs hv
    rw [collectNotificationSettings_eq]
    exact countP_key_eq_one (nodupKeys_outerFold v settings [] (by simp))
      (key_hit_outerFold hrule hs hv [])

/-- A validator accepting every settings object. -/
def exValidator : NotificationSettings → Option String := fun _ => none

/-- A validator rejecting every settings object. -/
def exRejectValidator : NotificationSettings → Option String := fun _ => some "invalid"

def exStoreDup : List (AlertRuleKey × List NotificationSettings) :=
  [("rule1", [exSettingsB, exSettingsB]), ("rule2", [exSettingsB])]

/-- Witness for claim C6 at a concrete store result holding three identical
settings objects across two rules: they collapse to exactly one entry. -/
theorem collect_dedup_witness :
    ("rule1", [exSettingsB, exSettingsB]) ∈ exStoreDup ∧
      exSettingsB ∈ [exSettingsB, exSettingsB] ∧
      exValidator exSettingsB = none ∧
      ((collectNotificationSettings exValidator exStoreDup).map Prod.fst).Nodup ∧
      (collectNotificationSettings exValidator exStoreDup).countP
        (fun p => p.1 == exSettingsB.Fingerprint) = 1 :=
  ⟨by decide, by decide, rfl,
    (collect_dedup exValidator exStoreDup).1,
    (collect_dedup exValidator exStoreDup).2 "rule1" [exSettingsB, exSettingsB]
      exSettingsB (by decide) (by decide) rfl⟩

/-- Claim C7: when the deduplicated settings set is empty, the synthesis
returns the explicit empty result — no root route node and a zero aggregate
fingerprint — and no error. -/
theorem newAutogeneratedRoute_empty
    (storeList : List (AlertRuleKey × List NotificationSettings))
    (defaultReceiver : String) (v : NotificationSettings → Option String)
    (h : collectNotificationSettings v storeList = []) :
    newAutogeneratedRoute (.ok storeList) defaultReceiver v =
      .ok { Route := none, Fingerprint := 0 } := by
  simp [newAutogeneratedRoute, h]

def exStoreInvalid : List (AlertRuleKey × List NotificationSettings) :=
  [("rule1", [exSettingsA])]

/-- Witness for claim C7 at a concrete store result whose single settings
object is rejected by the validator, leaving the deduplicated set empty. -/
theorem newAutogeneratedRoute_empty_witness :
    collectNotificationSettings exRejectValidator exStoreInvalid = [] ∧
    newAutogeneratedRoute (.ok exStoreInvalid) "default" exRejectValidator =
      .ok { Route := none, Fingerprint := 0 } :=
  ⟨rfl, newAutogeneratedRoute_empty exStoreInvalid "default" exRejectValidator rfl⟩

/-! ### Validation skipping and store-error propagation (claim C9) -/

theorem innerFold_filter (v : NotificationSettings → Option String)
    (rs : List NotificationSettings) :
    ∀ acc, rs.foldl (collectStep v) acc =
      (rs.filter fun s => (v s).isNone).foldl (collectStep v) acc := by
  induction rs with
  | nil => intro acc; rfl
  | cons s rs ih =>
    intro acc
    rw [List.foldl_cons, List.filter_cons]
    cases hv : v s with
    | none =>
      rw [if_pos (by rfl), List.foldl_cons, ih]
    | some e =>
      have hstep : collectStep v acc s = acc := by
        unfold collectStep
        rw [hv]
      rw [hstep, if_neg (by simp), ih]

theorem collect_filter_eq (v : NotificationSettings → Option String)
    (settings : List (AlertRuleKey × List NotificationSettings)) :
    collectNotificationSettings v settings =
      collectNotificationSettings v
        (settings.map fun rule => (rule.1, rule.2.filter fun s => (v s).isNone)) := by
  rw [collectNotificationSettings_eq, collectNotificationSettings_eq, List.foldl_map]
  have hfun : (fun (acc : List (Fingerprint × NotificationSettings)) rule =>
        rule.2.foldl (collectStep v) acc) =
      (fun (acc : List (Fingerprint × NotificationSettings))
          (rule : AlertRuleKey × List NotificationSettings) =>
        ((rule.1, rule.2.filter fun s => (v s).isNone).2).foldl (collectStep v) acc) := by
    funext acc rule
    exact innerFold_filter v rule.2 acc
  rw [hfun]

/-- Claim C9: a settings object failing the external validator is skipped and
never makes the synthesis fail — synthesis over any successful store listing
returns a result (never an error), and collection coincides with collection
over the same listing with every invalid object removed; a store-listing
failure is returned as an error wrapped with context, producing no result at
all (the embedding returns only the wrapped error). -/
theorem validation_skipped_store_error_propagated (defaultReceiver : String)
    (v : NotificationSettings → Option String)
    (settings : List (AlertRuleKey × List NotificationSettings)) (e : String) :
    newAutogeneratedRoute (.error e) defaultReceiver v =
      .error ("failed to list alert rules: " ++ e) ∧
    (∃ r, newAutogeneratedRoute (.ok settings) defaultReceiver v = .ok r) ∧
    collectNotificationSettings v settings =
      collectNotificationSettings v
        (settings.map fun rule => (rule.1, rule.2.filter fun s => (v s).isNone)) := by
  refine ⟨rfl, ?_, collect_filter_eq v settings⟩
  by_cases hemp : ((collectNotificationSettings v settings).isEmpty = true)
  · exact ⟨{ Route := none, Fingerprint := 0 }, by simp [newAutogeneratedRoute, hemp]⟩
  · exact ⟨{ Route := some (builtRoot defaultReceiver (collectNotificationSettings v settings))
             Fingerprint := calculateAutogeneratedRouteHash
               (builtKeys (collectNotificationSettings v settings)) },
      by simp [newAutogeneratedRoute, hemp, generateRouteFromSettings_eq]⟩

end GrafanaAutogen
